import Mathlib

/-!
Shallow embedding of the two core algorithms of the repository
secure-bioinformatics-reuse: the bounded rolling task dispatcher of
src/python/distribute.py and the EC2 pool manager of
src/python/DaskPool.py, together with the remote node-preparation step.
-/

namespace SBR

/-! ## Task dispatcher (src/python/distribute.py, distribute_runs)

Phase 1 of distribute_runs iterates over run_args_list, submitting one
task per tuple, incrementing n_futures after each submission and
breaking as soon as n_futures == len(pool.instances):

    n_futures = 0
    for run_args in run_args_list:
        submit(...)
        n_futures += 1
        if n_futures == len(pool.instances):
            break

fill_loop returns the final value of n_futures; the submitted tuples are
exactly the first fill_loop positions of the list, in list order.
-/

def fill_loop (poolSize : Nat) : List α → Nat → Nat
  | [], n => n
  | _ :: rest, n =>
    if n + 1 = poolSize then n + 1 else fill_loop poolSize rest (n + 1)

/-- Number of tasks submitted by Phase 1 of distribute_runs. -/
def fill_count (poolSize : Nat) (args : List α) : Nat :=
  fill_loop poolSize args 0

/-! Phase 2 of distribute_runs drains a completion-order iterator,
incrementing n_futures once per observed completion and, while the
incremented counter is still strictly below max_runs, submitting the
argument tuple at list index n_futures and adding the new future to the
same iterator:

    as_completed_futures = as_completed(submitted_futures)
    for future in as_completed_futures:
        n_futures += 1
        if n_futures < max_runs:
            as_completed_futures.add(
                client.submit(run_function, *run_args_list[n_futures], ...))

drain_loop models this loop.  `n` is n_futures, `o` is the number of
outstanding (submitted but not yet completed) futures, `acc` is the list
of argument-list indices submitted so far, in submission order, and `L`
is len(run_args_list).  Each iteration consumes one completion; a
replenishment submission puts one future back.  The order in which
completions arrive is nondeterministic in the source, but the submitted
indices depend only on the completion count, so the loop is modelled as
a deterministic recursion.  An access run_args_list[n_futures] with
n_futures >= L raises IndexError in Python; this is modelled by
Except.error carrying the indices submitted before the error. -/

@[semireducible] def drain_loop (maxRuns L : Nat) : Nat → Nat → List Nat → Except (List Nat) (List Nat)
  | _, 0, acc => Except.ok acc
  | n, o + 1, acc =>
    if h : n + 1 < maxRuns then
      if n + 1 < L then
        drain_loop maxRuns L (n + 1) (o + 1) (acc ++ [n + 1])
      else
        Except.error acc
    else
      drain_loop maxRuns L (n + 1) o acc
termination_by n o _ => o + (maxRuns - n)
decreasing_by
  · omega
  · omega

/-- Whole dispatch run of distribute_runs, abstracted over the task
function: the argument list is represented by its length `L` and each
submission is recorded as the argument-list index it uses.  Phase 1
submits indices 0, 1, ..., fill_count - 1 in list order; Phase 2 then
drains completions starting from n_futures = fill_count with that many
futures outstanding.  Except.ok holds all indices ever submitted when
the run finishes normally; Except.error holds the indices submitted
before an IndexError aborted the loop. -/
def distribute_runs (poolSize maxRuns L : Nat) : Except (List Nat) (List Nat) :=
  let p := fill_count poolSize (List.range L)
  drain_loop maxRuns L p p (List.range p)

/-- Indices ever submitted during a dispatch run, whether or not the run
aborted with an IndexError. -/
def submittedOf (r : Except (List Nat) (List Nat)) : List Nat :=
  match r with
  | Except.ok l => l
  | Except.error l => l

/-! ### Dispatcher lemmas -/

theorem fill_loop_of_lt (poolSize : Nat) :
    ∀ (args : List α) (n : Nat), n < poolSize →
      fill_loop poolSize args n = min poolSize (n + args.length) := by
  intro args
  induction args with
  | nil =>
    intro n hn
    simp [fill_loop]
    omega
  | cons a rest ih =>
    intro n hn
    by_cases h : n + 1 = poolSize
    · simp [fill_loop, h]
      omega
    · have h1 : n + 1 < poolSize := by omega
      simp [fill_loop, h, ih (n + 1) h1]
      omega

/-- For a nonempty pool, Phase 1 submits min(poolSize, length) tasks. -/
theorem fill_count_eq_min_of_pos (poolSize : Nat) (args : List α)
    (h : 1 ≤ poolSize) : fill_count poolSize args = min poolSize args.length := by
  have := fill_loop_of_lt poolSize args 0 (by omega)
  simpa [fill_count] using this

/-- Every index appended by the Phase 2 loop beyond the accumulator is
strictly greater than the value of n_futures the loop started from. -/
theorem drain_loop_submitted (M L : Nat) :
    ∀ (n o : Nat) (acc : List Nat), ∃ rest,
      submittedOf (drain_loop M L n o acc) = acc ++ rest ∧ ∀ x ∈ rest, n < x := by
  intro n o acc
  induction n, o, acc using drain_loop.induct M L with
  | case1 n acc =>
    exact ⟨[], by simp [drain_loop, submittedOf], by simp⟩
  | case2 n o acc hM hL ih =>
    obtain ⟨rest, hrest, hgt⟩ := ih
    refine ⟨(n + 1) :: rest, ?_, ?_⟩
    · rw [drain_loop, dif_pos hM, if_pos hL, hrest, List.append_assoc]
      rfl
    · intro x hx
      rcases List.mem_cons.mp hx with h | h
      · omega
      · have := hgt x h
        omega
  | case3 n o acc hM hL =>
    refine ⟨[], ?_, by simp⟩
    rw [drain_loop, dif_pos hM, if_neg hL]
    simp [submittedOf]
  | case4 n o acc hM ih =>
    obtain ⟨rest, hrest, hgt⟩ := ih
    refine ⟨rest, ?_, ?_⟩
    · rw [drain_loop, dif_neg hM]
      exact hrest
    · intro x hx
      have := hgt x hx
      omega

/-! ### Claims about the dispatcher -/

/-- C1, counterexample: with poolSize=3, maxRuns=9 and 20 argument
tuples, the total number of tasks ever submitted is not 9. -/
theorem scenario1_total_ne_nine :
    (submittedOf (distribute_runs 3 9 20)).length ≠ 9 := by decide

/-- C1, amended: with poolSize=3, maxRuns=9 and 20 argument tuples,
Phase 1 submits exactly 3 tasks; Phase 2 submits one replenishment per
observed completion while the incremented counter is below maxRuns,
which yields 5 replenishments at indices 4..8; the total number of
tasks ever submitted is 8, and the remaining 12 argument tuples
(index 3 and indices 9..19) are never submitted. -/
theorem scenario1_run_trace :
    fill_count 3 (List.range 20) = 3 ∧
    distribute_runs 3 9 20 = Except.ok [0, 1, 2, 4, 5, 6, 7, 8] ∧
    (submittedOf (distribute_runs 3 9 20)).length = 8 ∧
    ((List.range 20).filter
      (fun i => !(submittedOf (distribute_runs 3 9 20)).contains i)).length = 12 :=
  ⟨rfl, rfl, rfl, rfl⟩

/-- C2, counterexample: with poolSize=5, maxRuns=9 and 2 argument
tuples, the dispatch run does not finish normally: the Phase 2 loop
performs an out-of-range access into the argument list. -/
theorem scenario2_index_error :
    (distribute_runs 5 9 2).isOk = false := rfl

/-- C2, amended: with poolSize=5, maxRuns=9 and 2 argument tuples,
Phase 1 submits exactly 2 tasks; Phase 2 never submits a
replenishment, but on the first observed completion it increments
n_futures to 3 and uses it as a list index, an out-of-range access into
the length-2 argument list (IndexError), aborting the run with only the
two Phase 1 tuples ever submitted. -/
theorem scenario2_run_trace :
    fill_count 5 (List.range 2) = 2 ∧
    distribute_runs 5 9 2 = Except.error [0, 1] :=
  ⟨rfl, rfl⟩

/-- C3, counterexample: with poolSize=0 and a one-element argument
list, Phase 1 submits the whole list (the break condition
n_futures == len(pool.instances) is never true), not
min(poolSize, length) = 0 tasks. -/
theorem fill_count_zero_pool_cx :
    fill_count 0 [(0 : Nat)] ≠ min 0 [(0 : Nat)].length := by decide

/-- C3, amended: for every poolSize ≥ 1 and every argument list, the
number of tasks submitted by Phase 1 of distribute_runs equals
min(poolSize, length(argumentList)); for poolSize = 0 the loop instead
submits the entire list. -/
theorem fill_count_eq_min (poolSize : Nat) (args : List α)
    (h : 1 ≤ poolSize) : fill_count poolSize args = min poolSize args.length :=
  fill_count_eq_min_of_pos poolSize args h

/-- Witness for C3 at poolSize = 2 and a three-element list. -/
theorem fill_count_eq_min_witness :
    1 ≤ 2 ∧ fill_count 2 [10, 20, 30] = min 2 [10, 20, 30].length :=
  ⟨by decide, fill_count_eq_min 2 [10, 20, 30] (by decide)⟩

/-- C10, counterexample: at poolSize=1, maxRuns=3, argument list length
2 (which satisfies 1 ≤ poolSize < length and maxRuns > poolSize + 1),
the first Phase 2 replenishment does not submit the tuple at index
poolSize + 1 = 2: that index is out of range, so the run aborts with an
IndexError after submitting only index 0. -/
theorem skip_claim_boundary_cx :
    distribute_runs 1 3 2 = Except.error [0] ∧
    (submittedOf (distribute_runs 1 3 2))[1]? ≠ some 2 :=
  ⟨rfl, by decide⟩

/-- C10, amended: in every dispatch run with 1 ≤ poolSize,
poolSize + 1 < length(argumentList) and maxRuns > poolSize + 1, the
argument tuple at index poolSize is never submitted: the first Phase 2
replenishment increments the global submission counter to poolSize + 1
before using it as the list index, so it submits the tuple at index
poolSize + 1, permanently skipping index poolSize. -/
theorem index_poolSize_skipped (poolSize maxRuns L : Nat)
    (h1 : 1 ≤ poolSize) (h2 : poolSize + 1 < L) (h3 : poolSize + 1 < maxRuns) :
    poolSize ∉ submittedOf (distribute_runs poolSize maxRuns L) ∧
    (submittedOf (distribute_runs poolSize maxRuns L))[poolSize]? = some (poolSize + 1) := by
  have hfill : fill_count poolSize (List.range L) = poolSize := by
    rw [fill_count_eq_min_of_pos poolSize (List.range L) h1]
    simp only [List.length_range]
    omega
  obtain ⟨k, hk⟩ : ∃ k, poolSize = k + 1 := ⟨poolSize - 1, by omega⟩
  have hstep : distribute_runs poolSize maxRuns L =
      drain_loop maxRuns L (poolSize + 1) poolSize
        (List.range poolSize ++ [poolSize + 1]) := by
    rw [distribute_runs]
    simp only [hfill]
    rw [hk]
    rw [drain_loop, dif_pos (by omega : k + 1 + 1 < maxRuns),
      if_pos (by omega : k + 1 + 1 < L)]
  obtain ⟨rest, hrest, hgt⟩ :=
    drain_loop_submitted maxRuns L (poolSize + 1) poolSize
      (List.range poolSize ++ [poolSize + 1])
  rw [hstep, hrest]
  constructor
  · intro hmem
    rcases List.mem_append.mp hmem with h | h
    · rcases List.mem_append.mp h with h | h
      · exact absurd (List.mem_range.mp h) (by omega)
      · simp at h
    · have := hgt _ h
      omega
  · rw [List.append_assoc]
    rw [List.getElem?_append_right (by simp)]
    simp

/-- Witness for C10 at poolSize=3, maxRuns=9, argument list length 20. -/
theorem index_poolSize_skipped_witness :
    (1 ≤ 3 ∧ 3 + 1 < 20 ∧ 3 + 1 < 9) ∧
    (3 ∉ submittedOf (distribute_runs 3 9 20) ∧
      (submittedOf (distribute_runs 3 9 20))[3]? = some (3 + 1)) :=
  ⟨by decide, index_poolSize_skipped 3 9 20 (by decide) (by decide) (by decide)⟩

/-! ## Pool manager (src/python/DaskPool.py)

DaskPool manages a pool of EC2 instances.  The provider (boto EC2
connection) is modelled as a state holding every instance in the region
in provider-returned order, together with a counter supplying fresh
instance identifiers.  An instance carries the attributes the source
reads: id, ip_address, image_id, instance_type and lifecycle state.
The claims about convergence are stated for an idealized provider where
run_instances and stop_instances take effect instantly and reliably, so
newly created instances are immediately in the running state. -/

inductive LState
  | pending
  | running
  | stopped
  | terminated
deriving DecidableEq, Repr

structure Ec2Instance where
  id : Nat
  ipAddress : String
  imageId : String
  instanceType : String
  state : LState
deriving DecidableEq, Repr

structure ProviderState where
  instances : List Ec2Instance
  nextId : Nat
deriving DecidableEq, Repr

/-- Declared configuration of a DaskPool, with the defaults of
DaskPool.__init__. -/
structure PoolConfig where
  region_name : String := "us-east-1"
  image_id : String := "ami-0dc8ed438643bfda3"
  target_count : Nat := 3
  key_name : String := "dask-01"
  security_groups : List String := ["dask-01"]
  instance_type : String := "t2.micro"
  sleep_stp : Nat := 10
  sleep_max : Nat := 60
  branch : String := "rl/distributed-script-processing"
deriving DecidableEq, Repr

/-- Membership test of DaskPool._get_instances: an instance belongs to
the pool iff its image id and instance type match the pool
configuration and its lifecycle state is "running". -/
def memberPred (cfg : PoolConfig) (i : Ec2Instance) : Bool :=
  decide (i.imageId = cfg.image_id ∧ i.instanceType = cfg.instance_type ∧
    i.state = LState.running)

/-- DaskPool._get_instances: keep the instances satisfying memberPred,
in provider-returned order. -/
def get_instances (cfg : PoolConfig) (prov : ProviderState) : List Ec2Instance :=
  prov.instances.filter (memberPred cfg)

/-- Number of current pool members. -/
def memberCount (cfg : PoolConfig) (prov : ProviderState) : Nat :=
  (get_instances cfg prov).length

/-- connection.run_instances under the idealized provider: `count` new
instances with the pool image and type are created, immediately in the
running state, and appended to the provider list with fresh ids. -/
def run_instances (cfg : PoolConfig) (count : Nat) (prov : ProviderState) : ProviderState :=
  { instances := prov.instances ++ (List.range count).map fun k =>
      { id := prov.nextId + k
        ipAddress := "10.0.0." ++ toString (prov.nextId + k)
        imageId := cfg.image_id
        instanceType := cfg.instance_type
        state := LState.running }
    nextId := prov.nextId + count }

/-- connection.stop_instances under the idealized provider: every
instance whose id is listed moves to the stopped state immediately. -/
def stop_instances (ids : List Nat) (prov : ProviderState) : ProviderState :=
  { prov with instances := prov.instances.map fun i =>
      if i.id ∈ ids then { i with state := LState.stopped } else i }

/-- DaskPool._wait_for_pool does not change provider state: it only
polls _get_instances and sleeps (its loop is modelled separately as
wait_for_pool below for the termination claim). -/
def wait_for_pool_state (prov : ProviderState) : ProviderState :=
  prov

/-- The id-selection loop of DaskPool.remove_from_pool:

        instance_ids = []
        for i in self.instances:
            instance_ids.append(i.id)
            if len(instance_ids) == count:
                break

Note that for count = 0 the break condition is never true, so the loop
collects the ids of all current members. -/
def select_ids (count : Nat) : List Ec2Instance → List Nat → List Nat
  | [], acc => acc
  | i :: rest, acc =>
    let acc2 := acc ++ [i.id]
    if acc2.length = count then acc2 else select_ids count rest acc2

/-- DaskPool.remove_from_pool: refresh membership, collect ids with the
selection loop, and issue a stop request for them.  The trailing
_wait_for_pool call does not change provider state. -/
def remove_from_pool (cfg : PoolConfig) (count : Nat) (prov : ProviderState) : ProviderState :=
  let members := get_instances cfg prov
  let instance_ids := select_ids count members []
  wait_for_pool_state (stop_instances instance_ids prov)

/-- DaskPool.add_to_pool: refresh membership, request `count` new
instances in one provisioning call, then wait (state-neutral). -/
def add_to_pool (cfg : PoolConfig) (count : Nat) (prov : ProviderState) : ProviderState :=
  wait_for_pool_state (run_instances cfg count prov)

/-- DaskPool.maintain_pool: refresh membership, compare the current
count to the target; add the deficit or remove the surplus; then wait
for the pool (state-neutral). -/
def maintain_pool (cfg : PoolConfig) (prov : ProviderState) : ProviderState :=
  let current_count := memberCount cfg prov
  let prov2 :=
    if current_count < cfg.target_count then
      add_to_pool cfg (cfg.target_count - current_count) prov
    else if current_count > cfg.target_count then
      remove_from_pool cfg (current_count - cfg.target_count) prov
    else
      prov
  wait_for_pool_state prov2

/-! ### Pool manager lemmas -/

theorem select_ids_go (count : Nat) :
    ∀ (F : List Ec2Instance) (acc : List Nat), acc.length < count →
      select_ids count F acc = acc ++ (F.take (count - acc.length)).map Ec2Instance.id := by
  intro F
  induction F with
  | nil =>
    intro acc _
    simp [select_ids]
  | cons i rest ih =>
    intro acc hacc
    by_cases h : (acc ++ [i.id]).length = count
    · rw [select_ids]
      simp only [h, if_pos rfl]
      have hc : count - acc.length = 1 := by
        simp at h
        omega
      rw [hc]
      simp
    · rw [select_ids]
      simp only [if_neg h]
      have hlt : (acc ++ [i.id]).length < count := by
        simp at h ⊢
        omega
      rw [ih (acc ++ [i.id]) hlt]
      have hc : count - acc.length = (count - (acc ++ [i.id]).length) + 1 := by
        simp at hlt ⊢
        omega
      rw [hc, List.take_succ_cons]
      simp

/-- For count ≥ 1 the selection loop of remove_from_pool collects the
ids of the first `count` members, in provider-returned order. -/
theorem select_ids_eq_take (count : Nat) (F : List Ec2Instance) (h : 1 ≤ count) :
    select_ids count F [] = (F.take count).map Ec2Instance.id := by
  have := select_ids_go count F [] (by simpa using h)
  simpa using this

theorem memberPred_stopped (cfg : PoolConfig) (i : Ec2Instance) :
    memberPred cfg { i with state := LState.stopped } = false := by
  simp [memberPred]

theorem filter_map_stop (cfg : PoolConfig) (S : List Nat) (l : List Ec2Instance) :
    (l.map fun i => if i.id ∈ S then { i with state := LState.stopped } else i).filter
        (memberPred cfg) =
      l.filter fun i => !decide (i.id ∈ S) && memberPred cfg i := by
  induction l with
  | nil => rfl
  | cons i rest ih =>
    by_cases hi : i.id ∈ S
    · simp [hi, memberPred_stopped, ih]
    · simp only [List.map_cons, if_neg hi, List.filter_cons, ih]
      congr 1
      simp [hi]

theorem filter_and_right (l : List Ec2Instance) (q p : Ec2Instance → Bool) :
    (l.filter fun i => q i && p i) = (l.filter p).filter q := by
  rw [List.filter_filter]

/-- On a list with pairwise distinct ids, filtering away the elements
whose id occurs among the ids of the first k elements leaves exactly
the elements from position k on. -/
theorem filter_not_mem_take_ids (F : List Ec2Instance) (k : Nat)
    (hnodup : (F.map Ec2Instance.id).Nodup) :
    (F.filter fun i => !decide (i.id ∈ (F.take k).map Ec2Instance.id)) = F.drop k := by
  obtain ⟨S, hS⟩ : ∃ S, (F.take k).map Ec2Instance.id = S := ⟨_, rfl⟩
  rw [hS]
  have hsplit : F.map Ec2Instance.id =
      (F.take k).map Ec2Instance.id ++ (F.drop k).map Ec2Instance.id := by
    rw [← List.map_append, List.take_append_drop]
  have hdisj : ∀ i ∈ F.drop k, i.id ∉ S := by
    intro i hidrop hiS
    rw [hsplit] at hnodup
    have hdis := (List.nodup_append.mp hnodup).2.2
    rw [hS] at hdis
    exact hdis hiS (List.mem_map_of_mem Ec2Instance.id hidrop)
  conv_lhs => rw [← List.take_append_drop k F]
  rw [List.filter_append]
  have htake : ((F.take k).filter fun i => !decide (i.id ∈ S)) = [] := by
    apply List.filter_eq_nil_iff.mpr
    intro i hi
    have hmem : i.id ∈ S := hS ▸ List.mem_map_of_mem Ec2Instance.id hi
    simp [hmem]
  have hdrop : ((F.drop k).filter fun i => !decide (i.id ∈ S)) = F.drop k := by
    apply List.filter_eq_self.mpr
    intro i hi
    simpa using hdisj i hi
  rw [htake, hdrop, List.nil_append]

/-- Stopping the ids of the first k members leaves exactly the
remaining members, in order, as the pool membership. -/
theorem get_instances_stop_take (cfg : PoolConfig) (prov : ProviderState) (k : Nat)
    (hnodup : (prov.instances.map Ec2Instance.id).Nodup) :
    get_instances cfg
        (stop_instances (((get_instances cfg prov).take k).map Ec2Instance.id) prov) =
      (get_instances cfg prov).drop k := by
  have hFnodup : ((get_instances cfg prov).map Ec2Instance.id).Nodup :=
    hnodup.sublist (List.Sublist.map Ec2Instance.id (List.filter_sublist prov.instances))
  show ((prov.instances.map fun i =>
      if i.id ∈ ((get_instances cfg prov).take k).map Ec2Instance.id then
        { i with state := LState.stopped } else i).filter (memberPred cfg)) = _
  rw [filter_map_stop, filter_and_right]
  exact filter_not_mem_take_ids (get_instances cfg prov) k hFnodup

/-- For n ≥ 1, remove_from_pool stops the first n members and leaves
exactly the remaining members as the pool membership. -/
theorem remove_from_pool_members (cfg : PoolConfig) (prov : ProviderState) (n : Nat)
    (hnodup : (prov.instances.map Ec2Instance.id).Nodup) (hn : 1 ≤ n) :
    get_instances cfg (remove_from_pool cfg n prov) = (get_instances cfg prov).drop n := by
  show get_instances cfg
      (wait_for_pool_state (stop_instances (select_ids n (get_instances cfg prov) []) prov)) = _
  rw [select_ids_eq_take n (get_instances cfg prov) hn]
  exact get_instances_stop_take cfg prov n hnodup

/-- Adding c instances under the idealized provider raises the
membership count by exactly c. -/
theorem memberCount_run_instances (cfg : PoolConfig) (c : Nat) (prov : ProviderState) :
    memberCount cfg (run_instances cfg c prov) = memberCount cfg prov + c := by
  show ((prov.instances ++ _).filter (memberPred cfg)).length = _
  rw [List.filter_append, List.length_append]
  congr 1
  rw [List.filter_eq_self.mpr]
  · simp
  · intro i hi
    obtain ⟨kk, _, rfl⟩ := List.mem_map.mp hi
    simp [memberPred]

/-! ### Claims about the pool manager -/

/-- C4: under the idealized provider (instances are created and stopped
instantly and reliably), after maintain_pool returns the pool
membership count equals the declared target count, whether the
pre-call count was below, above, or equal to the target.  The
hypothesis states the provider invariant that instance ids are
unique. -/
theorem maintain_pool_converges (cfg : PoolConfig) (prov : ProviderState)
    (hnodup : (prov.instances.map Ec2Instance.id).Nodup) :
    memberCount cfg (maintain_pool cfg prov) = cfg.target_count := by
  show memberCount cfg
    (if memberCount cfg prov < cfg.target_count then
        add_to_pool cfg (cfg.target_count - memberCount cfg prov) prov
      else if memberCount cfg prov > cfg.target_count then
        remove_from_pool cfg (memberCount cfg prov - cfg.target_count) prov
      else prov) = cfg.target_count
  by_cases h1 : memberCount cfg prov < cfg.target_count
  · rw [if_pos h1]
    show memberCount cfg (run_instances cfg (cfg.target_count - memberCount cfg prov) prov) = _
    rw [memberCount_run_instances]
    omega
  · rw [if_neg h1]
    by_cases h2 : memberCount cfg prov > cfg.target_count
    · rw [if_pos h2]
      have hrm := remove_from_pool_members cfg prov
        (memberCount cfg prov - cfg.target_count) hnodup (by omega)
      show (get_instances cfg (remove_from_pool cfg
        (memberCount cfg prov - cfg.target_count) prov)).length = _
      rw [hrm, List.length_drop]
      show memberCount cfg prov - _ = _
      omega
    · rw [if_neg h2]
      omega

/-- A provider state with one running instance matching the default
configuration. -/
def mkMember (n : Nat) : Ec2Instance :=
  { id := n
    ipAddress := "10.0.0." ++ toString n
    imageId := "ami-0dc8ed438643bfda3"
    instanceType := "t2.micro"
    state := LState.running }

def cfgDefault : PoolConfig := {}

def provOne : ProviderState :=
  { instances := [mkMember 1], nextId := 2 }

def provFour : ProviderState :=
  { instances := [mkMember 1, mkMember 2, mkMember 3, mkMember 4], nextId := 5 }

def provFive : ProviderState :=
  { instances := [mkMember 1, mkMember 2, mkMember 3, mkMember 4, mkMember 5], nextId := 6 }

/-- Witness for C4: a pool of 4 running members with target 3
converges to exactly 3 members. -/
theorem maintain_pool_converges_witness :
    (provFour.instances.map Ec2Instance.id).Nodup ∧
    memberCount cfgDefault (maintain_pool cfgDefault provFour) = cfgDefault.target_count :=
  ⟨by decide, maintain_pool_converges cfgDefault provFour (by decide)⟩

/-- C5, counterexample: remove_from_pool(0) on a pool of one running
member does not issue a stop request for exactly 0 members: the id
selection loop never meets its break condition, collects every member
id, and the single member is stopped. -/
theorem remove_zero_stops_all_cx :
    (select_ids 0 (get_instances cfgDefault provOne) []).length = 1 ∧
    memberCount cfgDefault (remove_from_pool cfgDefault 0 provOne) = 0 := by
  constructor
  · rfl
  · rfl

/-- C5, amended: for every n with 1 ≤ n ≤ membership count (and
provider ids unique), remove_from_pool(n) issues a stop request for
exactly the ids of the first n members in provider-returned order from
the refreshed membership; the members not selected are unaffected and
are exactly the subsequent membership query result, in order.  For
n = 0 the selection loop instead collects every member id. -/
theorem remove_from_pool_stops_exactly (cfg : PoolConfig) (prov : ProviderState) (n : Nat)
    (hnodup : (prov.instances.map Ec2Instance.id).Nodup)
    (h1 : 1 ≤ n) (h2 : n ≤ memberCount cfg prov) :
    select_ids n (get_instances cfg prov) [] =
      ((get_instances cfg prov).take n).map Ec2Instance.id ∧
    (select_ids n (get_instances cfg prov) []).length = n ∧
    get_instances cfg (remove_from_pool cfg n prov) = (get_instances cfg prov).drop n ∧
    memberCount cfg (remove_from_pool cfg n prov) = memberCount cfg prov - n := by
  have hsel := select_ids_eq_take n (get_instances cfg prov) h1
  have hmem := remove_from_pool_members cfg prov n hnodup h1
  refine ⟨hsel, ?_, hmem, ?_⟩
  · rw [hsel, List.length_map, List.length_take]
    have : n ≤ (get_instances cfg prov).length := h2
    omega
  · show (get_instances cfg (remove_from_pool cfg n prov)).length = _
    rw [hmem, List.length_drop]
    rfl

/-- Witness for C5: removeFromPool(2) on a pool of 5 running members
stops exactly the first 2 and leaves the remaining 3 as the
membership. -/
theorem remove_from_pool_stops_exactly_witness :
    ((provFive.instances.map Ec2Instance.id).Nodup ∧ 1 ≤ 2 ∧
      2 ≤ memberCount cfgDefault provFive) ∧
    (select_ids 2 (get_instances cfgDefault provFive) [] =
      ((get_instances cfgDefault provFive).take 2).map Ec2Instance.id ∧
    (select_ids 2 (get_instances cfgDefault provFive) []).length = 2 ∧
    get_instances cfgDefault (remove_from_pool cfgDefault 2 provFive) =
      (get_instances cfgDefault provFive).drop 2 ∧
    memberCount cfgDefault (remove_from_pool cfgDefault 2 provFive) =
      memberCount cfgDefault provFive - 2) :=
  ⟨⟨by decide, by decide, by decide⟩,
    remove_from_pool_stops_exactly cfgDefault provFive 2 (by decide) (by decide) (by decide)⟩

/-! ## The polling loop of DaskPool._wait_for_pool

        sleep = 0
        while sleep < self.sleep_max:
            self.instances = self._get_instances()
            if len(self.instances) == count:
                break
            else:
                time.sleep(self.sleep_stp)
                sleep += self.sleep_stp

`obs k` is the membership count observed by the k-th poll (membership
may change between polls); `sleep` accumulates slept time and `k`
counts polls.  The while loop is modelled with explicit fuel, `none`
standing for a run that exceeds the fuel; the claim theorem shows that
fuel sleep_max / sleep_stp + 1 is never exceeded when sleep_stp > 0,
i.e. the source loop terminates.  The source function returns None on
both exit paths; the pair (sleep, k) only instruments the final loop
counters. -/

def wait_loop (stp smax target : Nat) (obs : Nat → Nat) :
    Nat → Nat → Nat → Option (Nat × Nat)
  | 0, sleep, k => if sleep < smax then none else some (sleep, k)
  | fuel + 1, sleep, k =>
    if sleep < smax then
      if obs k = target then some (sleep, k + 1)
      else wait_loop stp smax target obs fuel (sleep + stp) (k + 1)
    else some (sleep, k)

/-- DaskPool._wait_for_pool, entered with sleep = 0 and fuel
sleep_max / sleep_stp + 1. -/
def wait_for_pool (stp smax target : Nat) (obs : Nat → Nat) : Option (Nat × Nat) :=
  wait_loop stp smax target obs (smax / stp + 1) 0 0

theorem wait_loop_some (stp smax target : Nat) (obs : Nat → Nat) :
    ∀ (fuel sleep k : Nat), smax ≤ sleep + stp * fuel →
      ∃ s kf, wait_loop stp smax target obs fuel sleep k = some (s, kf) ∧
        kf ≤ k + fuel + 1 ∧
        (smax ≤ s ∨ (0 < kf ∧ obs (kf - 1) = target ∧ s < smax)) := by
  intro fuel
  induction fuel with
  | zero =>
    intro sleep k hle
    refine ⟨sleep, k, ?_, by omega, Or.inl (by omega)⟩
    rw [wait_loop, if_neg (by omega)]
  | succ fuel ih =>
    intro sleep k hle
    by_cases hs : sleep < smax
    · by_cases hobs : obs k = target
      · refine ⟨sleep, k + 1, ?_, by omega, Or.inr ⟨by omega, by simpa using hobs, hs⟩⟩
        rw [wait_loop, if_pos hs, if_pos hobs]
      · have hle2 : smax ≤ (sleep + stp) + stp * fuel := by
          rw [Nat.mul_succ] at hle
          omega
        obtain ⟨s, kf, heq, hk, hpost⟩ := ih (sleep + stp) (k + 1) hle2
        refine ⟨s, kf, ?_, by omega, hpost⟩
        rw [wait_loop, if_pos hs, if_neg hobs]
        exact heq
    · refine ⟨sleep, k, ?_, by omega, Or.inl (by omega)⟩
      rw [wait_loop, if_neg hs]

/-- C6: for every target count and observation sequence, with a
positive polling step the wait loop always returns normally (it never
exhausts the fuel bound, i.e. the source while loop terminates), the
number of polls is bounded by sleep_max / sleep_stp + 2, and on return
either the cumulative slept time has reached sleep_max (silent
timeout) or the last poll observed exactly the target count; both exit
paths produce the same normal return, so a timeout is indistinguishable
from success at the call site. -/
theorem wait_for_pool_terminates (stp smax target : Nat) (obs : Nat → Nat)
    (hstp : 0 < stp) :
    ∃ s k, wait_for_pool stp smax target obs = some (s, k) ∧
      k ≤ smax / stp + 2 ∧
      (smax ≤ s ∨ (0 < k ∧ obs (k - 1) = target ∧ s < smax)) := by
  have hdm := Nat.div_add_mod smax stp
  have hmod : smax % stp < stp := Nat.mod_lt _ hstp
  have hfuel : smax ≤ 0 + stp * (smax / stp + 1) := by
    rw [Nat.mul_succ]
    omega
  obtain ⟨s, k, heq, hk, hpost⟩ :=
    wait_loop_some stp smax target obs (smax / stp + 1) 0 0 hfuel
  exact ⟨s, k, heq, by omega, hpost⟩

/-- Witness for C6 with the default sleep_stp = 10, sleep_max = 60, a
pool that already has the target count, so the first poll succeeds. -/
theorem wait_for_pool_terminates_witness :
    0 < 10 ∧
    ∃ s k, wait_for_pool 10 60 3 (fun _ => 3) = some (s, k) ∧
      k ≤ 60 / 10 + 2 ∧
      (60 ≤ s ∨ (0 < k ∧ (fun _ => 3) (k - 1) = 3 ∧ s < 60)) :=
  ⟨by decide, wait_for_pool_terminates 10 60 3 (fun _ => 3) (by decide)⟩

/-! ## Node preparation (DaskPool.checkout_branch)

For each pool member, in membership order, the source connects a
paramiko SSHClient to the member ip, executes the fixed command
sequence, and reads the exit status.  On nonzero exit status it raises
Exception(stderr) immediately; otherwise it logs stdout and calls
client.close().  Note that the raise happens before the close call of
that iteration.  The remote collaborator is modelled by a function
from (ip, command) to the command result, and the session activity is
recorded as an event trace. -/

structure ExecResult where
  exitStatus : Nat
  stdout : String
  stderr : String
deriving DecidableEq, Repr

inductive SshEv
  | connect (ip : String)
  | execCmd (ip : String) (cmd : String)
  | close (ip : String)
deriving DecidableEq, Repr

/-- The command string of checkout_branch:
" ; ".join(["cd secure-bioinformatics-reuse", "git stash",
"git checkout " + self.branch, "git pull"]). -/
def checkout_commands (branch : String) : String :=
  String.intercalate " ; "
    ["cd secure-bioinformatics-reuse", "git stash", "git checkout " ++ branch, "git pull"]

/-- DaskPool.checkout_branch over the instance list, returning the
session event trace and either Except.ok (all members prepared) or
Except.error stderr (raised at the first nonzero exit status). -/
def checkout_branch (run : String → String → ExecResult) (cfg : PoolConfig) :
    List Ec2Instance → List SshEv × Except String Unit
  | [] => ([], Except.ok ())
  | i :: rest =>
    if (run i.ipAddress (checkout_commands cfg.branch)).exitStatus ≠ 0 then
      ([SshEv.connect i.ipAddress, SshEv.execCmd i.ipAddress (checkout_commands cfg.branch)],
        Except.error (run i.ipAddress (checkout_commands cfg.branch)).stderr)
    else
      (SshEv.connect i.ipAddress :: SshEv.execCmd i.ipAddress (checkout_commands cfg.branch) ::
        SshEv.close i.ipAddress :: (checkout_branch run cfg rest).1,
        (checkout_branch run cfg rest).2)

/-- Event trace of a fully successful prefix of members. -/
def prepare_trace (commands : String) : List Ec2Instance → List SshEv
  | [] => []
  | i :: rest =>
    SshEv.connect i.ipAddress :: SshEv.execCmd i.ipAddress commands ::
      SshEv.close i.ipAddress :: prepare_trace commands rest

/-- C7: node preparation is fail-stop.  If every member before b exits
with status 0 and b exits nonzero, checkout_branch raises immediately
with the stderr captured from b, and the event trace ends at the
execution on b: no session is opened to any member after b in the
membership order. -/
theorem checkout_branch_fail_stop (run : String → String → ExecResult) (cfg : PoolConfig)
    (pre post : List Ec2Instance) (b : Ec2Instance)
    (hpre : ∀ m ∈ pre, (run m.ipAddress (checkout_commands cfg.branch)).exitStatus = 0)
    (hb : (run b.ipAddress (checkout_commands cfg.branch)).exitStatus ≠ 0) :
    checkout_branch run cfg (pre ++ b :: post) =
      (prepare_trace (checkout_commands cfg.branch) pre ++
        [SshEv.connect b.ipAddress,
          SshEv.execCmd b.ipAddress (checkout_commands cfg.branch)],
        Except.error (run b.ipAddress (checkout_commands cfg.branch)).stderr) := by
  induction pre with
  | nil =>
    simp only [List.nil_append, checkout_branch, prepare_trace]
    rw [if_pos hb]
  | cons m rest ih =>
    have hm := hpre m (List.mem_cons_self m rest)
    have hrest : ∀ x ∈ rest, (run x.ipAddress (checkout_commands cfg.branch)).exitStatus = 0 :=
      fun x hx => hpre x (List.mem_cons_of_mem m hx)
    simp only [List.cons_append, checkout_branch, prepare_trace, List.append_eq]
    rw [if_neg (by simp [hm]), ih hrest]

/-- A host triple for the fail-stop scenario: B fails, A succeeds, C
is never contacted. -/
def runFailB : String → String → ExecResult :=
  fun ip _ =>
    if ip = "10.0.0.2" then { exitStatus := 1, stdout := "", stderr := "checkout failed" }
    else { exitStatus := 0, stdout := "ok", stderr := "" }

/-- Witness for C7: hosts [A, B, C] with B failing; preparation raises
after B with stderr of B and the trace holds no event for C. -/
theorem checkout_branch_fail_stop_witness :
    ((∀ m ∈ [mkMember 1],
        (runFailB m.ipAddress (checkout_commands cfgDefault.branch)).exitStatus = 0) ∧
      (runFailB (mkMember 2).ipAddress (checkout_commands cfgDefault.branch)).exitStatus ≠ 0) ∧
    checkout_branch runFailB cfgDefault ([mkMember 1] ++ mkMember 2 :: [mkMember 3]) =
      (prepare_trace (checkout_commands cfgDefault.branch) [mkMember 1] ++
        [SshEv.connect (mkMember 2).ipAddress,
          SshEv.execCmd (mkMember 2).ipAddress (checkout_commands cfgDefault.branch)],
        Except.error
          (runFailB (mkMember 2).ipAddress (checkout_commands cfgDefault.branch)).stderr) :=
  ⟨⟨by decide, by decide⟩,
    checkout_branch_fail_stop runFailB cfgDefault [mkMember 1] [mkMember 3] (mkMember 2)
      (by decide) (by decide)⟩

/-- C8, counterexample: on a member whose command exits nonzero, the
session is connected but never closed: the raise in checkout_branch
happens before the client.close() call of that iteration. -/
theorem session_close_skip_cx :
    SshEv.connect "10.0.0.2" ∈ (checkout_branch runFailB cfgDefault [mkMember 2]).1 ∧
    SshEv.close "10.0.0.2" ∉ (checkout_branch runFailB cfgDefault [mkMember 2]).1 := by
  constructor
  · decide
  · decide

/-- C8, amended: a contacted member has its session closed if and only
if its command exited with status 0; on the nonzero-exit path the
raise skips client.close() and that session stays unclosed. -/
theorem session_closed_iff_success (run : String → String → ExecResult) (cfg : PoolConfig)
    (members : List Ec2Instance) (ip : String)
    (hconn : SshEv.connect ip ∈ (checkout_branch run cfg members).1) :
    SshEv.close ip ∈ (checkout_branch run cfg members).1 ↔
      (run ip (checkout_commands cfg.branch)).exitStatus = 0 := by
  induction members with
  | nil => simp [checkout_branch] at hconn
  | cons i rest ih =>
    simp only [checkout_branch] at hconn ⊢
    by_cases hi : (run i.ipAddress (checkout_commands cfg.branch)).exitStatus = 0
    · rw [if_neg (by simp [hi])] at hconn ⊢
      simp only [List.mem_cons] at hconn ⊢
      by_cases hip : ip = i.ipAddress
      · subst hip
        simp [hi]
      · have hconn2 : SshEv.connect ip ∈ (checkout_branch run cfg rest).1 := by
          simpa [hip] using hconn
        have hiff := ih hconn2
        simp [hip, hiff]
    · rw [if_pos (by simpa using hi)] at hconn ⊢
      have hip : ip = i.ipAddress := by
        simpa using hconn
      subst hip
      simp [hi]

/-- A run in which every command succeeds. -/
def runAllOk : String → String → ExecResult :=
  fun _ _ => { exitStatus := 0, stdout := "ok", stderr := "" }

/-- Witness for C8: a contacted member whose command exits 0 has its
session closed. -/
theorem session_closed_iff_success_witness :
    SshEv.connect "10.0.0.1" ∈ (checkout_branch runAllOk cfgDefault [mkMember 1]).1 ∧
    (SshEv.close "10.0.0.1" ∈ (checkout_branch runAllOk cfgDefault [mkMember 1]).1 ↔
      (runAllOk "10.0.0.1" (checkout_commands cfgDefault.branch)).exitStatus = 0) :=
  ⟨by decide, session_closed_iff_success runAllOk cfgDefault [mkMember 1] "10.0.0.1" (by decide)⟩

/-! ## Error containment in the task-function helpers (distribute.py)

aura_scan and strace_conda_install wrap their subprocess.run call as

        try:
            completed_process = subprocess.run([...], capture_output=True)
        except Excetpion as e:
            logger.error(e)
        return completed_process

The except clause names Excetpion, which is defined neither among the
Python builtins nor in the module globals.  Python evaluates the name
in an except clause only when an exception is being handled; an
undefined name then raises NameError, chaining the original exception
as its context, so nothing is ever caught or logged.  The model
records the log lines emitted and returns Except.error on every path
on which the body raised. -/

structure CompletedProcess where
  returncode : Int
  stdout : String
  stderr : String
deriving DecidableEq, Repr

inductive PyExc
  | raised (kind : String) (msg : String)
  | nameErrorDuring (missing : String) (context : PyExc)
deriving DecidableEq, Repr

/-- Names of the Python builtin exceptions relevant to the helpers. -/
def pythonBuiltins : List String :=
  ["BaseException", "Exception", "OSError", "FileNotFoundError", "ValueError",
    "TypeError", "NameError", "RuntimeError", "KeyboardInterrupt"]

/-- Global names defined in the module distribute.py. -/
def moduleGlobals : List String :=
  ["ArgumentParser", "json", "logging", "os", "PurePath", "subprocess",
    "Client", "SSHCluster", "as_completed", "DaskPool", "KEY_DIR", "SHELL_CMD",
    "SCRIPTS_DIR", "RECIPES_DIR", "CONTAINERS_DIR", "root", "ch", "formatter",
    "logger", "list_repositories", "aura_scan", "list_recipes",
    "strace_conda_install", "list_dockerfiles", "strace_docker_build",
    "list_pipelines", "strace_pipeline_run", "setup_pool", "teardown_pool",
    "distribute_runs"]

/-- Whether a name used in an except clause of distribute.py resolves. -/
def resolvesName (n : String) : Bool :=
  pythonBuiltins.contains n || moduleGlobals.contains n

/-- A try/except block of the helpers: run the body; on success return
its value.  If the body raises and the except-clause name resolves (to
the catch-all class Exception in the source), log the error and fall
through to the return statement with no bound value; if the name does
not resolve, handling itself raises NameError chaining the original
exception.  The first component is the list of log lines emitted. -/
def tryExceptLogged (clauseName : String) (body : Except PyExc α) :
    List String × Except PyExc (Option α) :=
  match body with
  | Except.ok a => ([], Except.ok (some a))
  | Except.error e =>
    if resolvesName clauseName then
      (["error logged"], Except.ok none)
    else
      ([], Except.error (PyExc.nameErrorDuring clauseName e))

def KEY_DIR : String := "~/.ssh"

def SHELL_CMD : String := "/usr/bin/bash"

def SCRIPTS_DIR : String := "/home/ubuntu/secure-bioinformatics-reuse/src/bash"

/-- Argument vector of the subprocess.run call in aura_scan. -/
def aura_scan_argv (python_src scan_home options : String) : List String :=
  [SCRIPTS_DIR ++ "/aura-scan.sh", options, python_src, scan_home]

/-- aura_scan, abstracted over the subprocess collaborator
subprocessRun: the helper wraps the invocation in try/except with the
misspelled name Excetpion. -/
def aura_scan (subprocessRun : List String → Except PyExc CompletedProcess)
    (python_src : String) (scan_home : String := "scan") (options : String := "") :
    List String × Except PyExc (Option CompletedProcess) :=
  tryExceptLogged "Excetpion" (subprocessRun (aura_scan_argv python_src scan_home options))

/-- Argument vector of the subprocess.run call in strace_conda_install. -/
def strace_conda_install_argv (package options : String) : List String :=
  [SHELL_CMD, "-i", SCRIPTS_DIR ++ "/strace-conda-install.sh", options, package]

/-- strace_conda_install, abstracted over the subprocess collaborator;
same try/except wrapper with the misspelled name Excetpion. -/
def strace_conda_install (subprocessRun : List String → Except PyExc CompletedProcess)
    (package : String) (options : String := "") :
    List String × Except PyExc (Option CompletedProcess) :=
  tryExceptLogged "Excetpion"
    (subprocessRun (strace_conda_install_argv package options))

/-- C9: the error-containment wrapper in the task-function helpers
catches nothing.  For every input on which the wrapped subprocess
invocation raises, both aura_scan and strace_conda_install log nothing
and propagate an error to the caller (the NameError raised when the
misspelled clause name Excetpion fails to resolve, chaining the
original exception), rather than logging and swallowing it. -/
theorem helpers_catch_nothing
    (run1 run2 : List String → Except PyExc CompletedProcess)
    (python_src scan_home options package options2 : String) (e1 e2 : PyExc)
    (h1 : run1 (aura_scan_argv python_src scan_home options) = Except.error e1)
    (h2 : run2 (strace_conda_install_argv package options2) = Except.error e2) :
    aura_scan run1 python_src scan_home options =
      ([], Except.error (PyExc.nameErrorDuring "Excetpion" e1)) ∧
    strace_conda_install run2 package options2 =
      ([], Except.error (PyExc.nameErrorDuring "Excetpion" e2)) := by
  have hres : resolvesName "Excetpion" = false := by decide
  constructor
  · rw [aura_scan, h1]
    simp [tryExceptLogged, hres]
  · rw [strace_conda_install, h2]
    simp [tryExceptLogged, hres]

/-- A subprocess collaborator that always raises, as when the script
path does not exist. -/
def runRaises : List String → Except PyExc CompletedProcess :=
  fun _ => Except.error (PyExc.raised "FileNotFoundError" "no such file")

/-- Witness for C9: a raising subprocess invocation propagates out of
both helpers with nothing logged. -/
theorem helpers_catch_nothing_witness :
    (runRaises (aura_scan_argv "src" "scan" "") =
        Except.error (PyExc.raised "FileNotFoundError" "no such file") ∧
      runRaises (strace_conda_install_argv "samtools" "") =
        Except.error (PyExc.raised "FileNotFoundError" "no such file")) ∧
    (aura_scan runRaises "src" "scan" "" =
      ([], Except.error (PyExc.nameErrorDuring "Excetpion"
        (PyExc.raised "FileNotFoundError" "no such file"))) ∧
    strace_conda_install runRaises "samtools" "" =
      ([], Except.error (PyExc.nameErrorDuring "Excetpion"
        (PyExc.raised "FileNotFoundError" "no such file")))) :=
  ⟨⟨rfl, rfl⟩,
    helpers_catch_nothing runRaises runRaises "src" "scan" "" "samtools" ""
      (PyExc.raised "FileNotFoundError" "no such file")
      (PyExc.raised "FileNotFoundError" "no such file") rfl rfl⟩

end SBR
